import Mathlib

/-!
# Verification of the TransTest guided super-resolution network

Shallow embedding of the guided windowed cross-attention fusion network
(`src/model.py`), the checkpoint loader key handling (`src/eval.py`), the
construction-time configuration checks, and the window-geometry / metric
helpers (`utils.py`, absent from the sources; those are modelled from the
specification).

Tensors are embedded as shape fields plus total index functions into `ℚ`;
machine floats are replaced by exact rationals, with the non-algebraic
scalar primitives (`exp`, `sqrt`, `gelu`, `tanh`) passed in as explicit
function parameters, so every definition stays computable.
-/

set_option autoImplicit false

/-- Left-to-right sum `f 0 + f 1 + ... + f (n-1)`, mirroring the reduction
loops of the tensor library. -/
def sumR (n : ℕ) (f : ℕ → ℚ) : ℚ :=
  match n with
  | 0 => 0
  | m + 1 => sumR m f + f m

/-- A rank-4 feature map `(batch, channels, height, width)`.  The payload is a
total index function; only indices below the shape fields are meaningful. -/
structure FeatureMap where
  B : ℕ
  C : ℕ
  H : ℕ
  W : ℕ
  data : ℕ → ℕ → ℕ → ℕ → ℚ

/-- A rank-3 window batch `(batch·windowCount, windowElements, channels)`. -/
structure WindowBatch where
  B : ℕ
  N : ℕ
  C : ℕ
  data : ℕ → ℕ → ℕ → ℚ

/-- Bit-for-bit equality of two feature maps: identical shapes and identical
entries at every in-range index. -/
def FeatureMap.Eqv (x y : FeatureMap) : Prop :=
  x.B = y.B ∧ x.C = y.C ∧ x.H = y.H ∧ x.W = y.W ∧
    ∀ b < x.B, ∀ c < x.C, ∀ i < x.H, ∀ j < x.W,
      x.data b c i j = y.data b c i j

instance (x y : FeatureMap) : Decidable (x.Eqv y) := by
  unfold FeatureMap.Eqv; infer_instance

/-- Modelled from the spec: `utils.window_partition` is absent from the
sources.  Spec §4.1: reshape a `(B,C,H,W)` map into
`(B·(H/wh)·(W/ww), wh·ww, C)` non-overlapping tiles; windows and intra-window
elements are taken in raster order. -/
def windowPartition (x : FeatureMap) (wh ww : ℕ) : WindowBatch :=
  { B := x.B * (x.H / wh * (x.W / ww))
    N := wh * ww
    C := x.C
    data := fun w n c =>
      let nWw := x.W / ww
      let nW := x.H / wh * nWw
      x.data (w / nW) c
        (w % nW / nWw * wh + n / ww)
        (w % nW % nWw * ww + n % ww) }

/-- Modelled from the spec: `utils.window_merge` is absent from the sources.
Spec §4.1: the exact inverse reshape of `windowPartition`, written out
directly by index arithmetic (pure reshape/permutation, no interpolation). -/
def windowMerge (w : WindowBatch) (wh ww H W : ℕ) : FeatureMap :=
  { B := w.B / (H / wh * (W / ww))
    C := w.C
    H := H
    W := W
    data := fun b c i j =>
      let nWw := W / ww
      let nW := H / wh * nWw
      w.data (b * nW + (i / wh * nWw + j / ww)) (i % wh * ww + j % ww) c }

/-- Modelled from the spec: `utils.half_window_shift` is absent from the
sources.  Spec §4.1: a cyclic spatial translation by `(wh/2, ww/2)`;
`forward := true` and `forward := false` are mutual inverses. -/
def halfWindowShift (x : FeatureMap) (wh ww : ℕ) (forward : Bool) : FeatureMap :=
  { B := x.B
    C := x.C
    H := x.H
    W := x.W
    data := fun b c i j =>
      let si := if forward then x.H - wh / 2 % x.H else wh / 2
      let sj := if forward then x.W - ww / 2 % x.W else ww / 2
      x.data b c ((i + si) % x.H) ((j + sj) % x.W) }

/-- Weights of an affine layer `nn.Linear`: `weight : (out, in)`, `bias : out`. -/
structure TLinear where
  weight : ℕ → ℕ → ℚ
  bias : ℕ → ℚ

/-- `nn.Linear` application along the last axis: `y o = bias o + Σ_c v c * weight o c`. -/
def linApply (l : TLinear) (cIn : ℕ) (v : ℕ → ℚ) (o : ℕ) : ℚ :=
  l.bias o + sumR cIn (fun c => v c * l.weight o c)

/-- The rows `[ofs, ofs + ...)` of an affine layer viewed as a layer of its
own; used to read the combined query/key/value projection as a triple of
per-stream linear maps, as the spec words it. -/
def rowSlice (l : TLinear) (ofs : ℕ) : TLinear :=
  { weight := fun o i => l.weight (ofs + o) i
    bias := fun o => l.bias (ofs + o) }

/-- Softmax along an axis of length `n`, with the scalar exponential passed
in as `e` (the embedding of the transcendental float primitive). -/
def softmaxAt (e : ℚ → ℚ) (n : ℕ) (s : ℕ → ℚ) (m : ℕ) : ℚ :=
  e (s m) / sumR n (fun k => e (s k))

/-- Learned parameters of `nn.LayerNorm` over the channel axis. -/
structure LayerNormM where
  gamma : ℕ → ℚ
  beta : ℕ → ℚ
  eps : ℚ

/-- `nn.LayerNorm` along the last axis of length `cN` (biased variance), with
the scalar square root passed in as `sq`. -/
def layerNormApply (sq : ℚ → ℚ) (ln : LayerNormM) (cN : ℕ) (v : ℕ → ℚ) (c : ℕ) : ℚ :=
  let mu := sumR cN v / (cN : ℚ)
  let vr := sumR cN (fun i => (v i - mu) ^ 2) / (cN : ℚ)
  ln.gamma c * ((v c - mu) / sq (vr + ln.eps)) + ln.beta c

/-- Parameters of `WindowCrossAttention` (`src/model.py:9`): a combined
query/key/value projection, a learned per-head positional bias, an output
projection, a dropout module and a layer norm — one of each per stream.
Dropout modules are embedded as elementwise scalar maps. -/
structure WindowCrossAttention where
  windowH : ℕ
  windowW : ℕ
  numChannels : ℕ
  numHeads : ℕ
  wQkv1 : TLinear
  wQkv2 : TLinear
  bias1 : ℕ → ℕ → ℕ → ℚ
  bias2 : ℕ → ℕ → ℕ → ℚ
  proj1 : TLinear
  proj2 : TLinear
  drop1 : ℚ → ℚ
  drop2 : ℚ → ℚ
  norm1 : LayerNormM
  norm2 : LayerNormM

/-- The errors `WindowCrossAttention.forward` can raise: the two explicit
shape checks (`src/model.py:43-46`), and the broadcast failure of the
in-place bias addition (`src/model.py:58-59`) — adding the
`(heads, E, E)` learned bias (`E = wh·ww` fixed at construction,
`src/model.py:15,22-25`) into the `(B_, heads, N, N)` score tensor in place
succeeds only when `N = E`, or when `E = 1` and the single bias entry
broadcasts; otherwise the tensor library raises a `RuntimeError`. -/
inductive AttnError where
  | shapeMismatch
  | channelMismatch
  | broadcastMismatch
deriving DecidableEq, Repr

/-- `WindowCrossAttention.forward` (`src/model.py:39-77`).  The input shape
checks come first; then each stream is projected to a combined
`(B,N,3C)` tensor, reshaped to `(B,N,3,heads,C/heads)` and permuted to
`(3,B,heads,N,C/heads)`, so slice `s`, head `h`, element `d` of a stream
sits at flat output index `s*(heads*dh) + h*dh + d`.  Scores are scaled by
`1/√numChannels`, the per-head bias is added, softmax runs over the key
axis, and each stream's weights are applied to the *other* stream's values;
then per-stream projection, dropout, residual and norm.  The third error
branch is the in-place bias addition of `src/model.py:58`: it raises unless
the window-element count `N` equals the configured `windowH * windowW`, or
the latter is `1` (the one case in which the bias broadcasts into the
scores).  (A constructed unit always has `numHeads ∣ numChannels`, so the
`reshape` never fails; the embedding therefore has no further error
case.) -/
def windowCrossAttentionForward (e sq : ℚ → ℚ) (u : WindowCrossAttention)
    (x y : WindowBatch) : Except AttnError (WindowBatch × WindowBatch) :=
  if x.B ≠ y.B ∨ x.C ≠ y.C ∨ x.N ≠ y.N then .error .shapeMismatch
  else if x.C ≠ u.numChannels then .error .channelMismatch
  else if ¬(x.N = u.windowH * u.windowW ∨ u.windowH * u.windowW = 1) then
    .error .broadcastMismatch
  else
    let C := x.C
    let N := x.N
    let hds := u.numHeads
    let dh := C / hds
    let qkv1 : ℕ → ℕ → ℕ → ℚ := fun bi n o => linApply u.wQkv1 C (x.data bi n) o
    let qkv2 : ℕ → ℕ → ℕ → ℚ := fun bi n o => linApply u.wQkv2 C (y.data bi n) o
    let q1 := fun bi h n d => qkv1 bi n (0 * (hds * dh) + h * dh + d)
    let k1 := fun bi h n d => qkv1 bi n (1 * (hds * dh) + h * dh + d)
    let v1 := fun bi h n d => qkv1 bi n (2 * (hds * dh) + h * dh + d)
    let q2 := fun bi h n d => qkv2 bi n (0 * (hds * dh) + h * dh + d)
    let k2 := fun bi h n d => qkv2 bi n (1 * (hds * dh) + h * dh + d)
    let v2 := fun bi h n d => qkv2 bi n (2 * (hds * dh) + h * dh + d)
    let score1 := fun bi h n m =>
      sumR dh (fun d => q1 bi h n d * k2 bi h m d) / sq (u.numChannels : ℚ) + u.bias1 h n m
    let score2 := fun bi h n m =>
      sumR dh (fun d => q2 bi h n d * k1 bi h m d) / sq (u.numChannels : ℚ) + u.bias2 h n m
    let attn1 := fun bi h n m => softmaxAt e N (score1 bi h n) m
    let attn2 := fun bi h n m => softmaxAt e N (score2 bi h n) m
    let core1 := fun bi n c => sumR N (fun m => attn1 bi (c / dh) n m * v2 bi (c / dh) m (c % dh))
    let core2 := fun bi n c => sumR N (fun m => attn2 bi (c / dh) n m * v1 bi (c / dh) m (c % dh))
    let o1 := fun bi n c =>
      layerNormApply sq u.norm1 C
        (fun c2 => u.drop1 (linApply u.proj1 C (core1 bi n) c2) + x.data bi n c2) c
    let o2 := fun bi n c =>
      layerNormApply sq u.norm2 C
        (fun c2 => u.drop2 (linApply u.proj2 C (core2 bi n) c2) + y.data bi n c2) c
    .ok ({ B := x.B, N := N, C := C, data := o1 }, { B := x.B, N := N, C := C, data := o2 })

/-- Parameters of `FeedForward` (`src/model.py:79`). -/
structure FFModule where
  expansion : ℕ
  fc1 : TLinear
  fc2 : TLinear
  drop : ℚ → ℚ
  norm : LayerNormM

/-- `FeedForward.forward` (`src/model.py:87-93`): expand, gelu, contract,
dropout, residual, norm. -/
def feedForwardForward (gelu sq : ℚ → ℚ) (f : FFModule) (x : WindowBatch) : WindowBatch :=
  { B := x.B
    N := x.N
    C := x.C
    data := fun bi n c =>
      layerNormApply sq f.norm x.C
        (fun c2 =>
          f.drop (linApply f.fc2 (x.C * f.expansion)
            (fun j => gelu (linApply f.fc1 x.C (x.data bi n) j)) c2) + x.data bi n c2) c }

/-- Sub-modules of `CrossAttentionBlock` (`src/model.py:95-103`): one
attention unit and one feed-forward per pass. -/
structure CrossAttentionBlockM where
  windowH : ℕ
  windowW : ℕ
  crossAttention1 : WindowCrossAttention
  feedForward1 : FFModule
  crossAttention2 : WindowCrossAttention
  feedForward2 : FFModule

/-- `CrossAttentionBlock.forward` (`src/model.py:105-130`): pass 1 on
unshifted windows, merge, a single `half_window_shift(·, false)`, pass 2 on
the shifted windows, merge.  Note that within each pass the same
feed-forward module is applied to both streams, and no inverse shift is
applied after the second merge. -/
def crossAttentionBlockForward (e sq gelu : ℚ → ℚ) (blk : CrossAttentionBlockM)
    (x y : FeatureMap) : Except AttnError (FeatureMap × FeatureMap) := do
  let iH := x.H
  let iW := x.W
  let p1 ← windowCrossAttentionForward e sq blk.crossAttention1
    (windowPartition x blk.windowH blk.windowW) (windowPartition y blk.windowH blk.windowW)
  let x1 := feedForwardForward gelu sq blk.feedForward1 p1.1
  let y1 := feedForwardForward gelu sq blk.feedForward1 p1.2
  let xs := halfWindowShift (windowMerge x1 blk.windowH blk.windowW iH iW) blk.windowH blk.windowW false
  let ys := halfWindowShift (windowMerge y1 blk.windowH blk.windowW iH iW) blk.windowH blk.windowW false
  let p2 ← windowCrossAttentionForward e sq blk.crossAttention2
    (windowPartition xs blk.windowH blk.windowW) (windowPartition ys blk.windowH blk.windowW)
  let x2 := feedForwardForward gelu sq blk.feedForward2 p2.1
  let y2 := feedForwardForward gelu sq blk.feedForward2 p2.2
  pure (windowMerge x2 blk.windowH blk.windowW iH iW, windowMerge y2 blk.windowH blk.windowW iH iW)

/-- Modelled from the spec: the two-pass fusion block as §2/§4.3 describe it,
with the cyclic half-window shift *and its inverse* — after the second
merge the inverse shift restores the input's spatial alignment.  This is the
alignment-preserving reference the claim about `CrossAttentionBlock.forward`
is compared against. -/
def crossAttentionBlockForwardAligned (e sq gelu : ℚ → ℚ) (blk : CrossAttentionBlockM)
    (x y : FeatureMap) : Except AttnError (FeatureMap × FeatureMap) := do
  let iH := x.H
  let iW := x.W
  let p1 ← windowCrossAttentionForward e sq blk.crossAttention1
    (windowPartition x blk.windowH blk.windowW) (windowPartition y blk.windowH blk.windowW)
  let x1 := feedForwardForward gelu sq blk.feedForward1 p1.1
  let y1 := feedForwardForward gelu sq blk.feedForward1 p1.2
  let xs := halfWindowShift (windowMerge x1 blk.windowH blk.windowW iH iW) blk.windowH blk.windowW false
  let ys := halfWindowShift (windowMerge y1 blk.windowH blk.windowW iH iW) blk.windowH blk.windowW false
  let p2 ← windowCrossAttentionForward e sq blk.crossAttention2
    (windowPartition xs blk.windowH blk.windowW) (windowPartition ys blk.windowH blk.windowW)
  let x2 := feedForwardForward gelu sq blk.feedForward2 p2.1
  let y2 := feedForwardForward gelu sq blk.feedForward2 p2.2
  pure (halfWindowShift (windowMerge x2 blk.windowH blk.windowW iH iW) blk.windowH blk.windowW true,
        halfWindowShift (windowMerge y2 blk.windowH blk.windowW iH iW) blk.windowH blk.windowW true)

/-- Sub-modules of the two-pass fusion block as the claim about per-stream
feed-forwards reads it: an independently parameterized feed-forward for each
stream within each pass. -/
structure CrossAttentionBlockPS where
  windowH : ℕ
  windowW : ℕ
  crossAttention1 : WindowCrossAttention
  feedForward1x : FFModule
  feedForward1y : FFModule
  crossAttention2 : WindowCrossAttention
  feedForward2x : FFModule
  feedForward2y : FFModule

/-- Modelled from the spec claim: the fusion pass in which, after attention,
each stream is refined by its *own* feed-forward sub-block. -/
def crossAttentionBlockForwardPerStream (e sq gelu : ℚ → ℚ) (blk : CrossAttentionBlockPS)
    (x y : FeatureMap) : Except AttnError (FeatureMap × FeatureMap) := do
  let iH := x.H
  let iW := x.W
  let p1 ← windowCrossAttentionForward e sq blk.crossAttention1
    (windowPartition x blk.windowH blk.windowW) (windowPartition y blk.windowH blk.windowW)
  let x1 := feedForwardForward gelu sq blk.feedForward1x p1.1
  let y1 := feedForwardForward gelu sq blk.feedForward1y p1.2
  let xs := halfWindowShift (windowMerge x1 blk.windowH blk.windowW iH iW) blk.windowH blk.windowW false
  let ys := halfWindowShift (windowMerge y1 blk.windowH blk.windowW iH iW) blk.windowH blk.windowW false
  let p2 ← windowCrossAttentionForward e sq blk.crossAttention2
    (windowPartition xs blk.windowH blk.windowW) (windowPartition ys blk.windowH blk.windowW)
  let x2 := feedForwardForward gelu sq blk.feedForward2x p2.1
  let y2 := feedForwardForward gelu sq blk.feedForward2y p2.2
  pure (windowMerge x2 blk.windowH blk.windowW iH iW, windowMerge y2 blk.windowH blk.windowW iH iW)

/-- `F.interpolate(·, size, mode=bilinear, align_corners=False)`
(`src/model.py:211`): the source coordinate of output cell `i` is
`max 0 ((i + 1/2)·(in/out) - 1/2)`; the two neighbouring rows/columns are
its floor and the floor plus one clamped to the last row/column, blended by
the fractional part. -/
def srcCoord (inLen outLen i : ℕ) : ℚ :=
  max 0 (((i : ℚ) + 1 / 2) * (inLen : ℚ) / (outLen : ℚ) - 1 / 2)

/-- Bilinear resize of a feature map to spatial size `(oh, ow)`. -/
def bilinearResize (x : FeatureMap) (oh ow : ℕ) : FeatureMap :=
  { B := x.B
    C := x.C
    H := oh
    W := ow
    data := fun b c i j =>
      let hr := srcCoord x.H oh i
      let wr := srcCoord x.W ow j
      let i0 := (⌊hr⌋).toNat
      let j0 := (⌊wr⌋).toNat
      let i1 := if i0 + 1 < x.H then i0 + 1 else i0
      let j1 := if j0 + 1 < x.W then j0 + 1 else j0
      let li := hr - (i0 : ℚ)
      let lj := wr - (j0 : ℚ)
      (1 - li) * ((1 - lj) * x.data b c i0 j0 + lj * x.data b c i0 j1) +
        li * ((1 - lj) * x.data b c i1 j0 + lj * x.data b c i1 j1) }

/-- `nn.MaxPool2d(2, 2)` (`src/model.py:171`). -/
def maxPool2 (x : FeatureMap) : FeatureMap :=
  { B := x.B
    C := x.C
    H := x.H / 2
    W := x.W / 2
    data := fun b c i j =>
      max (max (x.data b c (2 * i) (2 * j)) (x.data b c (2 * i) (2 * j + 1)))
        (max (x.data b c (2 * i + 1) (2 * j)) (x.data b c (2 * i + 1) (2 * j + 1))) }

/-- Elementwise `torch.max` of two equally-shaped maps (`src/model.py:221`). -/
def fmMax (x y : FeatureMap) : FeatureMap :=
  { B := x.B, C := x.C, H := x.H, W := x.W
    data := fun b c i j => max (x.data b c i j) (y.data b c i j) }

/-- `torch.cat([x, y], dim=1)` (`src/model.py:235`). -/
def fmCat (x y : FeatureMap) : FeatureMap :=
  { B := x.B, C := x.C + y.C, H := x.H, W := x.W
    data := fun b c i j => if c < x.C then x.data b c i j else y.data b (c - x.C) i j }

/-- Elementwise sum of two equally-shaped maps (`src/model.py:241`). -/
def fmAdd (x y : FeatureMap) : FeatureMap :=
  { B := x.B, C := x.C, H := x.H, W := x.W
    data := fun b c i j => x.data b c i j + y.data b c i j }

/-- Elementwise application of a scalar map (`torch.nn.functional.tanh`,
`src/model.py:239`). -/
def fmMap (f : ℚ → ℚ) (x : FeatureMap) : FeatureMap :=
  { B := x.B, C := x.C, H := x.H, W := x.W
    data := fun b c i j => f (x.data b c i j) }

/-- The final `nn.Conv2d(c, 1, kernel_size=1, stride=1, padding=0)`
projection (`src/model.py:196`): a per-pixel affine combination of the
channels, producing a single output channel. -/
def conv1x1 (w : ℕ → ℚ) (bias : ℚ) (x : FeatureMap) : FeatureMap :=
  { B := x.B
    C := 1
    H := x.H
    W := x.W
    data := fun b _ i j => bias + sumR x.C (fun ch => w ch * x.data b ch i j) }

/-- The constructed `GSRNet` (`src/model.py:152-199`), with each constructed
sub-module embedded as the function its `forward` computes: the two
convolutional towers, the per-scale fusion blocks, the bottleneck, the
upsample and decoder convolutions, and the concrete final 1×1 projection. -/
structure GSRNetM where
  numChannelsList : List ℕ
  topDownConvIr : FeatureMap → FeatureMap
  topDownConvVi : FeatureMap → FeatureMap
  downConvListIr : List (FeatureMap → FeatureMap)
  downConvListVi : List (FeatureMap → FeatureMap)
  crossAttentionBlocks : List (FeatureMap → FeatureMap → FeatureMap × FeatureMap)
  bottomUpConv : FeatureMap → FeatureMap
  upSampleList : List (FeatureMap → FeatureMap)
  upConvList : List (FeatureMap → FeatureMap)
  projWeight : ℕ → ℚ
  projBias : ℚ

/-- The downward path of `GSRNet.forward` (`src/model.py:218-225`): at each
scale feed both streams to the fusion block, keep the elementwise maximum as
the skip, then max-pool and convolve both streams. -/
def downPass : List (FeatureMap → FeatureMap → FeatureMap × FeatureMap) →
    List (FeatureMap → FeatureMap) → List (FeatureMap → FeatureMap) →
    FeatureMap → FeatureMap → List FeatureMap × FeatureMap × FeatureMap
  | blk :: blks, cir :: cirs, cvi :: cvis, x, y =>
    let p := blk x y
    let r := fmMax p.1 p.2
    let res := downPass blks cirs cvis (cir (maxPool2 x)) (cvi (maxPool2 y))
    (r :: res.1, res.2)
  | _, _, _, x, y => ([], x, y)

/-- The upward path of `GSRNet.forward` (`src/model.py:233-236`): upsample,
concatenate with the matching skip (deepest skip first), convolve. -/
def upPass : List (FeatureMap → FeatureMap) → List (FeatureMap → FeatureMap) →
    List FeatureMap → FeatureMap → FeatureMap
  | us :: uss, uc :: ucs, r :: rs, z => upPass uss ucs rs (uc (fmCat (us z) r))
  | _, _, _, z => z

/-- `GSRNet.forward` (`src/model.py:210-241`): pre-align the low-resolution
input to the guide's spatial size, run the dual-stream encoder with
per-scale fusion skips, decode upward, project to one channel, apply the
bounded non-linearity `th` and add the upsampled input as a residual. -/
def gsrnetForward (th : ℚ → ℚ) (net : GSRNetM) (x y : FeatureMap) : FeatureMap :=
  let x1 := bilinearResize x y.H y.W
  let dres := downPass net.crossAttentionBlocks.dropLast net.downConvListIr net.downConvListVi
    (net.topDownConvIr x1) (net.topDownConvVi y)
  let pLast := (net.crossAttentionBlocks.getLastD (fun a _ => (a, a))) dres.2.1 dres.2.2
  let z0 := net.bottomUpConv (fmMax pLast.1 pLast.2)
  let z1 := upPass net.upSampleList net.upConvList dres.1.reverse z0
  fmAdd x1 (fmMap th (conv1x1 net.projWeight net.projBias z1))

/-- Shape of a feature map as a proposition. -/
def ShapeIs (t : FeatureMap) (b c h w : ℕ) : Prop :=
  t.B = b ∧ t.C = c ∧ t.H = h ∧ t.W = w

/-- A convolutional block: preserves batch and spatial size and sets the
channel count to `cOut` (`ConvBlock`, `src/model.py:132-149`). -/
def ConvSpec (f : FeatureMap → FeatureMap) (cOut : ℕ) : Prop :=
  ∀ t, ShapeIs (f t) t.B cOut t.H t.W

/-- A fusion block: both outputs have the shape of the first input
(`CrossAttentionBlock.forward` merges both streams back to
`x.shape[-2:]`). -/
def BlockSpec (g : FeatureMap → FeatureMap → FeatureMap × FeatureMap) : Prop :=
  ∀ t u, ShapeIs (g t u).1 t.B t.C t.H t.W ∧ ShapeIs (g t u).2 t.B t.C t.H t.W

/-- An upsample layer: doubles the spatial size and sets the channel count to
`cOut` (`GSRNet.get_upsample_layer`, `src/model.py:201-208`). -/
def UpSpec (f : FeatureMap → FeatureMap) (cOut : ℕ) : Prop :=
  ∀ t, ShapeIs (f t) t.B cOut (2 * t.H) (2 * t.W)

/-- Shapes of the skip list produced by the downward path: channel counts
follow the per-scale list while the spatial size halves at each scale. -/
def ResShapesOK (b : ℕ) : ℕ → ℕ → List ℕ → List FeatureMap → Prop
  | _, _, [], [] => True
  | h, w, c :: cs, r :: rs => ShapeIs r b c h w ∧ ResShapesOK b (h / 2) (w / 2) cs rs
  | _, _, _, _ => False

/-- Shapes of the reversed skip list as the upward path consumes it: channel
counts follow the reversed per-scale list while the spatial size doubles. -/
def RevShapesOK (b : ℕ) : ℕ → ℕ → List ℕ → List FeatureMap → Prop
  | _, _, [], [] => True
  | h, w, c :: cs, r :: rs => ShapeIs r b c (2 * h) (2 * w) ∧ RevShapesOK b (2 * h) (2 * w) cs rs
  | _, _, _, _ => False

/-- The constructor arguments of `GSRNet` (`src/model.py:153-155`) that the
construction-time checks inspect. -/
structure GSRConfig where
  imageH : ℕ
  imageW : ℕ
  windowH : ℕ
  windowW : ℕ
  numHead : ℕ
  numChannelsList : List ℕ
  numConvDownLayersList : List ℕ
  numConvUpLayersList : List ℕ
  dropout : ℚ
  upsampleMode : String
deriving Repr

/-- The errors `GSRNet.__init__` can raise: the length assertion
(`src/model.py:166`), indexing an empty channel list (`src/model.py:168`),
the divisibility check of `WindowCrossAttention.__init__`
(`src/model.py:36-37`, including the division by a zero head count), and the
two failures of `get_upsample_layer` (`src/model.py:201-208`) — an
unrecognized mode, or the `bilinear` branch handing a Python list to
`nn.Sequential`, which `nn.Sequential` rejects with a `TypeError` because a
list is not a `Module`. -/
inductive InitError where
  | lengthMismatch
  | indexError
  | zeroHeadDivision
  | notDivisible
  | sequentialTypeError
  | unrecognizedMode
deriving DecidableEq, Repr

/-- The divisibility checks run by the per-scale `WindowCrossAttention`
constructions (`src/model.py:36-37`, one unit per entry of the channel
list), in order.  The Python comparison `c // h != c / h` is embedded as
exact non-divisibility; `h = 0` raises a `ZeroDivisionError`. -/
def checkDivisList (heads : ℕ) : List ℕ → Except InitError Unit
  | [] => .ok ()
  | c :: rest =>
    if heads = 0 then .error .zeroHeadDivision
    else if c % heads ≠ 0 then .error .notDivisible
    else checkDivisList heads rest

/-- One call of `GSRNet.get_upsample_layer` (`src/model.py:201-208`). -/
def upsampleLayerCheck (mode : String) : Except InitError Unit :=
  if mode = "conv_transpose" then .ok ()
  else if mode = "bilinear" then .error .sequentialTypeError
  else .error .unrecognizedMode

/-- The checks `GSRNet.__init__` runs, in source order: the list-length
assertion, the `num_channels_list[0]` access, one divisibility check per
scale, and — only when there are at least two scales, because the loop
`for i in range(num_unet_layers-2, -1, -1)` is otherwise empty — the
upsample-layer builder. -/
def gsrnetInit (cfg : GSRConfig) : Except InitError Unit :=
  if ¬(cfg.numChannelsList.length = cfg.numConvDownLayersList.length ∧
      cfg.numConvDownLayersList.length = cfg.numConvUpLayersList.length) then
    .error .lengthMismatch
  else if cfg.numChannelsList.isEmpty then .error .indexError
  else do
    checkDivisList cfg.numHead cfg.numChannelsList
    if 2 ≤ cfg.numChannelsList.length then upsampleLayerCheck cfg.upsampleMode
    else .ok ()

/-- Mean squared error over all entries of two equally-shaped maps. -/
def mse (x y : FeatureMap) : ℚ :=
  sumR x.B (fun b => sumR x.C (fun c => sumR x.H (fun i => sumR x.W (fun j =>
    (x.data b c i j - y.data b c i j) ^ 2)))) / ((x.B * x.C * x.H * x.W : ℕ) : ℚ)

/-- Modelled from the spec: `utils.psnr` is absent from the sources.
Spec §4.5: `10·log10(peak² / MSE)`, except that an exactly zero mean squared
error is clamped to the configurable finite `sentinel` instead of producing
a non-finite value; `lg` embeds the float `log10` primitive. -/
def psnrClamped (lg : ℚ → ℚ) (peak sentinel : ℚ) (x y : FeatureMap) : ℚ :=
  if mse x y = 0 then sentinel else 10 * lg (peak ^ 2 / mse x y)

/-- Python's `str.startswith`, on the underlying character list. -/
def pyStartsWith (s p : String) : Bool :=
  p.data.isPrefixOf s.data

/-- The scan of Python's `str.replace`: replace every non-overlapping
occurrence of `pat`, scanning left to right, with the remaining length as
structural fuel. -/
def pyReplaceAux (pat rep : List Char) : ℕ → List Char → List Char
  | 0, l => l
  | _ + 1, [] => []
  | fuel + 1, c :: rest =>
    if pat ≠ [] ∧ pat.isPrefixOf (c :: rest) then
      rep ++ pyReplaceAux pat rep fuel ((c :: rest).drop pat.length)
    else c :: pyReplaceAux pat rep fuel rest

/-- Python's `str.replace(pat, rep)` (all occurrences, not only a leading
prefix — the semantics of the call in `load_model`). -/
def pyReplace (s pat rep : String) : String :=
  { data := pyReplaceAux pat.data rep.data s.data.length s.data }

/-- The checkpoint-key rewriting of `load_model` (`src/eval.py:22-27`): the
new state dict keeps an entry only when its key starts with `"module."`,
with every occurrence of `"module."` removed from the kept key; entries
whose keys do not carry the prefix are dropped (the `for` loop has no `else`
branch). -/
def loadStateDictKeys (ckpt : List (String × ℚ)) : List (String × ℚ) :=
  ckpt.filterMap fun kv =>
    if pyStartsWith kv.1 "module." then some (pyReplace kv.1 "module." "", kv.2) else none

/-- Affine layer with all weights and biases zero. -/
def zeroLin : TLinear :=
  { weight := fun _ _ => 0, bias := fun _ => 0 }

/-- Layer norm with unit gain, zero shift and `eps = 1`. -/
def unitNorm : LayerNormM :=
  { gamma := fun _ => 1, beta := fun _ => 0, eps := 1 }

/-- A concrete two-channel, one-head attention unit for `(2,1)` windows whose
learned weights are all zero. -/
def trivAttn : WindowCrossAttention :=
  { windowH := 2, windowW := 1, numChannels := 2, numHeads := 1
    wQkv1 := zeroLin, wQkv2 := zeroLin
    bias1 := fun _ _ _ => 0, bias2 := fun _ _ _ => 0
    proj1 := zeroLin, proj2 := zeroLin
    drop1 := id, drop2 := id
    norm1 := unitNorm, norm2 := unitNorm }

/-- Feed-forward sub-block with all weights zero. -/
def zeroFF : FFModule :=
  { expansion := 0, fc1 := zeroLin, fc2 := zeroLin, drop := id, norm := unitNorm }

/-- Feed-forward sub-block that differs from `zeroFF` only in the bias of its
contracting layer. -/
def biasFF : FFModule :=
  { expansion := 0, fc1 := zeroLin
    fc2 := { weight := fun _ _ => 0, bias := fun o => if o = 1 then 1 else 0 }
    drop := id, norm := unitNorm }

/-- A concrete fusion block over `(2,1)` windows built from `trivAttn` and
`zeroFF`. -/
def blockC3 : CrossAttentionBlockM :=
  { windowH := 2, windowW := 1
    crossAttention1 := trivAttn, feedForward1 := zeroFF
    crossAttention2 := trivAttn, feedForward2 := zeroFF }

/-- A concrete `(1,2,2,1)` feature map whose first channel varies with the
row index. -/
def fmC3 : FeatureMap :=
  { B := 1, C := 2, H := 2, W := 1
    data := fun _ c i _ => if c = 0 then (i : ℚ) else 0 }

/-- Same as `blockC3`; the baseline block of the feed-forward sharing
counterexample. -/
def blockC4a : CrossAttentionBlockM :=
  { windowH := 2, windowW := 1
    crossAttention1 := trivAttn, feedForward1 := zeroFF
    crossAttention2 := trivAttn, feedForward2 := zeroFF }

/-- The block of the feed-forward sharing counterexample: identical to
`blockC4a` except for the single module `feedForward1`. -/
def blockC4b : CrossAttentionBlockM :=
  { windowH := 2, windowW := 1
    crossAttention1 := trivAttn, feedForward1 := biasFF
    crossAttention2 := trivAttn, feedForward2 := zeroFF }

/-- A second concrete `(1,2,2,1)` feature map, used as the guide stream. -/
def fmC4y : FeatureMap :=
  { B := 1, C := 2, H := 2, W := 1
    data := fun _ c i _ => if c = 0 then (3 * i : ℚ) else 0 }

/-- A one-channel, one-head attention unit with zero weights, for the
cross-attention witnesses. -/
def attnUnitW : WindowCrossAttention :=
  { windowH := 1, windowW := 1, numChannels := 1, numHeads := 1
    wQkv1 := zeroLin, wQkv2 := zeroLin
    bias1 := fun _ _ _ => 0, bias2 := fun _ _ _ => 0
    proj1 := zeroLin, proj2 := zeroLin
    drop1 := id, drop2 := id
    norm1 := unitNorm, norm2 := unitNorm }

/-- A concrete `(1,1,1)` window batch of ones. -/
def wbW1 : WindowBatch :=
  { B := 1, N := 1, C := 1, data := fun _ _ _ => 1 }

/-- A concrete `(1,1,1)` window batch of twos. -/
def wbW2 : WindowBatch :=
  { B := 1, N := 1, C := 1, data := fun _ _ _ => 2 }

/-- A window batch whose batch size disagrees with `wbW1`. -/
def wbBad : WindowBatch :=
  { B := 2, N := 1, C := 1, data := fun _ _ _ => 0 }

/-- A constructed unit for `(8,10)` windows (80 window elements), 64
channels and 4 heads, with zero learned weights. -/
def attnUnit810 : WindowCrossAttention :=
  { windowH := 8, windowW := 10, numChannels := 64, numHeads := 4
    wQkv1 := zeroLin, wQkv2 := zeroLin
    bias1 := fun _ _ _ => 0, bias2 := fun _ _ _ => 0
    proj1 := zeroLin, proj2 := zeroLin
    drop1 := id, drop2 := id
    norm1 := unitNorm, norm2 := unitNorm }

/-- A `(1, 5, 64)` window batch: its channel count matches `attnUnit810`,
but its window-element count differs from the configured `8·10 = 80`. -/
def wbN5 : WindowBatch :=
  { B := 1, N := 5, C := 64, data := fun _ _ _ => 0 }

/-- A constant convolutional tower mapping any input to two channels. -/
def convTo2 : FeatureMap → FeatureMap :=
  fun t => { B := t.B, C := 2, H := t.H, W := t.W, data := fun _ _ _ _ => 0 }

/-- A concrete single-scale network for the decoder-residual witness. -/
def netW : GSRNetM :=
  { numChannelsList := [2]
    topDownConvIr := convTo2, topDownConvVi := convTo2
    downConvListIr := [], downConvListVi := []
    crossAttentionBlocks := [fun a _ => (a, a)]
    bottomUpConv := convTo2
    upSampleList := [], upConvList := []
    projWeight := fun _ => 0, projBias := 0 }

/-- A concrete `(1,1,2,2)` low-resolution input. -/
def fmXw : FeatureMap :=
  { B := 1, C := 1, H := 2, W := 2, data := fun _ _ i j => ((i + j : ℕ) : ℚ) }

/-- A concrete `(1,3,2,2)` guide image. -/
def fmYw : FeatureMap :=
  { B := 1, C := 3, H := 2, W := 2, data := fun _ _ _ _ => 1 }

/-- A concrete `(1,1,2,2)` feature map with pairwise distinct entries, for
the partition/merge round-trip witness. -/
def fmC8 : FeatureMap :=
  { B := 1, C := 1, H := 2, W := 2, data := fun b c i j => ((b + 2 * c + 3 * i + 5 * j : ℕ) : ℚ) }

/-- A constant half feature map for the metric witness. -/
def fmC9 : FeatureMap :=
  { B := 1, C := 1, H := 1, W := 1, data := fun _ _ _ _ => 1 / 2 }

/-- A single-scale configuration whose upsample mode is the unrecognized
string `"bicubic"` — the default found in `opt.py`. -/
def cfgSingleScale : GSRConfig :=
  { imageH := 512, imageW := 640, windowH := 8, windowW := 10, numHead := 4
    numChannelsList := [64], numConvDownLayersList := [2], numConvUpLayersList := [2]
    dropout := 0, upsampleMode := "bicubic" }

/-- A valid two-scale configuration. -/
def cfgTwoScale : GSRConfig :=
  { imageH := 512, imageW := 640, windowH := 8, windowW := 10, numHead := 4
    numChannelsList := [64, 128], numConvDownLayersList := [2, 2], numConvUpLayersList := [2, 2]
    dropout := 0, upsampleMode := "conv_transpose" }

/-- The spec-side reading of one attention direction: head `h` queries of the
query stream against the key stream's keys, scaled by `1/√C`, plus the
direction's per-head bias, normalized by softmax along the key axis and
applied to the key stream's values — where the query/key/value triples are
the row-slices of the combined projections, read as per-stream linear maps. -/
def crossHeadOut (e sq : ℚ → ℚ) (wq wkv : TLinear) (bias : ℕ → ℕ → ℕ → ℚ)
    (C hds N : ℕ) (xq xkv : WindowBatch) (b h n d : ℕ) : ℚ :=
  let dh := C / hds
  let q := fun n2 d2 => linApply (rowSlice wq 0) C (xq.data b n2) (h * dh + d2)
  let k := fun m d2 => linApply (rowSlice wkv (hds * dh)) C (xkv.data b m) (h * dh + d2)
  let v := fun m d2 => linApply (rowSlice wkv (2 * (hds * dh))) C (xkv.data b m) (h * dh + d2)
  let score := fun m => sumR dh (fun d2 => q n d2 * k m d2) / sq (C : ℚ) + bias h n m
  sumR N (fun m => softmaxAt e N score m * v m d)

/-- The pass-1 stage of `CrossAttentionBlock.forward` (`src/model.py:110-112`):
the first attention unit, followed by the application of the single module
`feedForward1` to each of the two attended streams. -/
def pass1Of (e sq gelu : ℚ → ℚ) (blk : CrossAttentionBlockM) (xw yw : WindowBatch) :
    Except AttnError (WindowBatch × WindowBatch) :=
  (windowCrossAttentionForward e sq blk.crossAttention1 xw yw).map fun p =>
    (feedForwardForward gelu sq blk.feedForward1 p.1,
     feedForwardForward gelu sq blk.feedForward1 p.2)

/-- The pass-2 stage of `CrossAttentionBlock.forward` (`src/model.py:123-125`). -/
def pass2Of (e sq gelu : ℚ → ℚ) (blk : CrossAttentionBlockM) (xw yw : WindowBatch) :
    Except AttnError (WindowBatch × WindowBatch) :=
  (windowCrossAttentionForward e sq blk.crossAttention2 xw yw).map fun p =>
    (feedForwardForward gelu sq blk.feedForward2 p.1,
     feedForwardForward gelu sq blk.feedForward2 p.2)

/-- `CrossAttentionBlock.forward` factored through its two pass stages. -/
def blockViaPasses (e sq gelu : ℚ → ℚ) (blk : CrossAttentionBlockM) (x y : FeatureMap) :
    Except AttnError (FeatureMap × FeatureMap) := do
  let p1 ← pass1Of e sq gelu blk
    (windowPartition x blk.windowH blk.windowW) (windowPartition y blk.windowH blk.windowW)
  let xs := halfWindowShift (windowMerge p1.1 blk.windowH blk.windowW x.H x.W) blk.windowH blk.windowW false
  let ys := halfWindowShift (windowMerge p1.2 blk.windowH blk.windowW x.H x.W) blk.windowH blk.windowW false
  let p2 ← pass2Of e sq gelu blk
    (windowPartition xs blk.windowH blk.windowW) (windowPartition ys blk.windowH blk.windowW)
  pure (windowMerge p2.1 blk.windowH blk.windowW x.H x.W,
        windowMerge p2.2 blk.windowH blk.windowW x.H x.W)

/-- Entry of the first stream of a pass result, defaulting to `0` on error. -/
def wbFst (r : Except AttnError (WindowBatch × WindowBatch)) (b n c : ℕ) : ℚ :=
  match r with
  | .ok p => p.1.data b n c
  | .error _ => 0

/-- Entry of the second stream of a pass result, defaulting to `0` on error. -/
def wbSnd (r : Except AttnError (WindowBatch × WindowBatch)) (b n c : ℕ) : ℚ :=
  match r with
  | .ok p => p.2.data b n c
  | .error _ => 0


/-- A configuration with its upsample mode replaced. -/
def withMode (cfg : GSRConfig) (m : String) : GSRConfig :=
  { cfg with upsampleMode := m }

/-- The last element of `c :: cs`. -/
def lastCh (c : ℕ) (cs : List ℕ) : ℕ :=
  match cs with
  | [] => c
  | c1 :: rest => lastCh c1 rest

theorem sumR_congr {n : ℕ} {f g : ℕ → ℚ} (h : ∀ i < n, f i = g i) : sumR n f = sumR n g := by
  induction n with
  | zero => rfl
  | succ m ih =>
    simp only [sumR]
    rw [ih fun i hi => h i (Nat.lt_succ_of_lt hi), h m (Nat.lt_succ_self m)]

theorem sumR_eq_zero {n : ℕ} {f : ℕ → ℚ} (h : ∀ i < n, f i = 0) : sumR n f = 0 := by
  induction n with
  | zero => rfl
  | succ m ih =>
    simp only [sumR]
    rw [ih fun i hi => h i (Nat.lt_succ_of_lt hi), h m (Nat.lt_succ_self m)]
    norm_num

theorem mse_self (x : FeatureMap) : mse x x = 0 := by
  unfold mse
  rw [sumR_eq_zero fun b _ => sumR_eq_zero fun c _ => sumR_eq_zero fun i _ =>
    sumR_eq_zero fun j _ => by ring]
  simp

/-- Claim C9: whenever the mean squared error of a pair of images is exactly
zero — in particular for `PSNR(x,x)` — the PSNR computation returns the
configurable finite sentinel value rather than a non-finite result. -/
theorem c9_psnr_zero_mse_sentinel (lg : ℚ → ℚ) (peak sentinel : ℚ) (x y : FeatureMap)
    (h : mse x y = 0) :
    psnrClamped lg peak sentinel x y = sentinel ∧
      psnrClamped lg peak sentinel x x = sentinel := by
  constructor
  · simp [psnrClamped, h]
  · simp [psnrClamped, mse_self]

theorem c9_witness :
    mse fmC9 fmC9 = 0 ∧
      (psnrClamped id 1 100 fmC9 fmC9 = 100 ∧ psnrClamped id 1 100 fmC9 fmC9 = 100) :=
  ⟨mse_self fmC9, c9_psnr_zero_mse_sentinel id 1 100 fmC9 fmC9 (mse_self fmC9)⟩

/-- Claim C5: the checkpoint loader keeps only the keys that start with the
parallel-training prefix `"module."` (stripping it) and silently discards
every key without the prefix, so a checkpoint saved without the parallel
wrapper — here a one-entry state dict — restores nothing; the claim that
unprefixed keys are preserved is contradicted by the code. -/
theorem c5_loader_drops_unprefixed_keys :
    loadStateDictKeys [("proj.weight", 1)] = [] ∧
    loadStateDictKeys [("module.proj.weight", 1)] = [("proj.weight", 1)] := by
  constructor <;> rfl

theorem checkDivisList_ok_iff (hds : ℕ) (l : List ℕ) :
    checkDivisList hds l = .ok () ↔ ∀ c ∈ l, hds ≠ 0 ∧ c % hds = 0 := by
  induction l with
  | nil => simp [checkDivisList]
  | cons c rest ih =>
    simp only [checkDivisList, List.mem_cons]
    by_cases h0 : hds = 0
    · rw [if_pos h0]
      constructor
      · intro h
        exact absurd h (by simp)
      · intro h
        exact absurd h0 (h c (Or.inl rfl)).1
    · rw [if_neg h0]
      by_cases hc : c % hds = 0
      · rw [if_neg (not_not_intro hc), ih]
        constructor
        · intro h x hx
          rcases hx with hx | hx
          · exact ⟨h0, hx ▸ hc⟩
          · exact h x hx
        · intro h x hx
          exact h x (Or.inr hx)
      · rw [if_pos hc]
        constructor
        · intro h
          exact absurd h (by simp)
        · intro h
          exact absurd (h c (Or.inl rfl)).2 hc

/-- Claim C6 (amended): mismatched per-scale list lengths, an empty channel
list, a zero head count and a channel count not divisible by the head count
are always rejected at construction; an unrecognized upsample mode is
rejected at construction exactly when there are at least two scales, because
a single-scale configuration never invokes the upsample-layer builder. -/
theorem c6_init_ok_iff (cfg : GSRConfig) :
    gsrnetInit cfg = .ok () ↔
      (cfg.numChannelsList.length = cfg.numConvDownLayersList.length ∧
       cfg.numConvDownLayersList.length = cfg.numConvUpLayersList.length ∧
       cfg.numChannelsList ≠ [] ∧
       (∀ c ∈ cfg.numChannelsList, cfg.numHead ≠ 0 ∧ c % cfg.numHead = 0) ∧
       (cfg.numChannelsList.length ≤ 1 ∨ cfg.upsampleMode = "conv_transpose")) := by
  unfold gsrnetInit
  by_cases hAB : cfg.numChannelsList.length = cfg.numConvDownLayersList.length ∧
      cfg.numConvDownLayersList.length = cfg.numConvUpLayersList.length
  · rw [if_neg (not_not_intro hAB)]
    by_cases hE : cfg.numChannelsList.isEmpty = true
    · rw [if_pos hE]
      have he : cfg.numChannelsList = [] := by
        cases hl : cfg.numChannelsList with
        | nil => rfl
        | cons a l => rw [hl] at hE; exact absurd hE (by simp)
      constructor
      · intro h
        exact Except.noConfusion h
      · intro h
        exact absurd he h.2.2.1
    · rw [if_neg hE]
      have hne : cfg.numChannelsList ≠ [] := by
        intro h
        rw [h] at hE
        exact hE rfl
      cases cd : checkDivisList cfg.numHead cfg.numChannelsList with
      | error e =>
        simp only [Bind.bind, Except.bind]
        constructor
        · intro h
          exact Except.noConfusion h
        · intro h
          rw [(checkDivisList_ok_iff _ _).2 h.2.2.2.1] at cd
          exact Except.noConfusion cd
      | ok u =>
        cases u
        simp only [Bind.bind, Except.bind]
        have hdiv := (checkDivisList_ok_iff cfg.numHead cfg.numChannelsList).1 cd
        by_cases hL : 2 ≤ cfg.numChannelsList.length
        · rw [if_pos hL]
          unfold upsampleLayerCheck
          by_cases hm : cfg.upsampleMode = "conv_transpose"
          · rw [if_pos hm]
            constructor
            · intro _
              exact ⟨hAB.1, hAB.2, hne, hdiv, Or.inr hm⟩
            · intro _
              rfl
          · rw [if_neg hm]
            constructor
            · intro h
              by_cases hb : cfg.upsampleMode = "bilinear"
              · rw [if_pos hb] at h
                exact Except.noConfusion h
              · rw [if_neg hb] at h
                exact Except.noConfusion h
            · intro h
              rcases h.2.2.2.2 with h1 | h1
              · omega
              · exact absurd h1 hm
        · rw [if_neg hL]
          constructor
          · intro _
            exact ⟨hAB.1, hAB.2, hne, hdiv, Or.inl (by omega)⟩
          · intro _
            rfl
  · rw [if_pos hAB]
    constructor
    · intro h
      exact Except.noConfusion h
    · intro h
      exact absurd ⟨h.1, h.2.1⟩ hAB

/-- Claim C6 (counterexample): a single-scale configuration with the
unrecognized upsample mode `"bicubic"` — the default of `opt.py` —
constructs without any error, because the upsample builder is never
invoked. -/
theorem c6_counterexample :
    gsrnetInit cfgSingleScale = .ok () ∧
    cfgSingleScale.upsampleMode ≠ "conv_transpose" ∧
    cfgSingleScale.upsampleMode ≠ "bilinear" := by
  refine ⟨rfl, ?_, ?_⟩ <;> decide

/-- Claim C10: for any configuration with at least two scales that passes the
earlier checks, construction in the recognized mode `"bilinear"` fails with
the `nn.Sequential` type error (the builder hands it a Python list), while
`"conv_transpose"` — and only `"conv_transpose"` — constructs. -/
theorem c10_bilinear_unconstructible (cfg : GSRConfig)
    (hl1 : cfg.numChannelsList.length = cfg.numConvDownLayersList.length)
    (hl2 : cfg.numConvDownLayersList.length = cfg.numConvUpLayersList.length)
    (hL : 2 ≤ cfg.numChannelsList.length)
    (hdiv : ∀ c ∈ cfg.numChannelsList, cfg.numHead ≠ 0 ∧ c % cfg.numHead = 0) :
    gsrnetInit (withMode cfg "bilinear") = .error .sequentialTypeError ∧
    gsrnetInit (withMode cfg "conv_transpose") = .ok () ∧
    ∀ m, gsrnetInit (withMode cfg m) = .ok () → m = "conv_transpose" := by
  have hne : ¬cfg.numChannelsList.isEmpty = true := by
    cases hl : cfg.numChannelsList with
    | nil => rw [hl] at hL; exact absurd hL (by simp)
    | cons a l => simp
  have key : ∀ m : String, gsrnetInit (withMode cfg m) = upsampleLayerCheck m := by
    intro m
    unfold gsrnetInit withMode
    rw [if_neg (not_not_intro ⟨hl1, hl2⟩), if_neg hne,
      (checkDivisList_ok_iff cfg.numHead cfg.numChannelsList).2 hdiv]
    simp only [Bind.bind, Except.bind]
    rw [if_pos hL]
  refine ⟨?_, ?_, ?_⟩
  · rw [key]
    unfold upsampleLayerCheck
    rw [if_neg (by decide), if_pos rfl]
  · rw [key]
    unfold upsampleLayerCheck
    rw [if_pos rfl]
  · intro m hm
    rw [key] at hm
    unfold upsampleLayerCheck at hm
    by_cases h1 : m = "conv_transpose"
    · exact h1
    · rw [if_neg h1] at hm
      by_cases h2 : m = "bilinear"
      · rw [if_pos h2] at hm
        exact Except.noConfusion hm
      · rw [if_neg h2] at hm
        exact Except.noConfusion hm

theorem c10_witness :
    gsrnetInit (withMode cfgTwoScale "bilinear") = .error .sequentialTypeError ∧
    gsrnetInit (withMode cfgTwoScale "conv_transpose") = .ok () ∧
    ∀ m, gsrnetInit (withMode cfgTwoScale m) = .ok () → m = "conv_transpose" :=
  c10_bilinear_unconstructible cfgTwoScale (by decide) (by decide) (by decide) (by decide)

/-- Claim C7 (amended): for a constructed unit (head count divides channel
count), the cross-attention forward fails exactly when the two window
batches disagree in batch, window-element count or channel count, when the
channel count differs from the unit's configured value, or when the
window-element count differs from the unit's configured `windowH·windowW`
while the latter exceeds one (the in-place bias addition of
`src/model.py:58` then fails to broadcast).  Each error is decided by the
shape fields alone — before any computation on the entries — and the error
value is pinned per mismatch kind.  The embedding is a pure function, so
the unit's parameters are untouched in every case. -/
theorem c7_shape_error_iff (e sq : ℚ → ℚ) (u : WindowCrossAttention) (x y : WindowBatch)
    (hdvd : u.numHeads ∣ u.numChannels) :
    ((∃ p, windowCrossAttentionForward e sq u x y = .ok p) ↔
      (x.B = y.B ∧ x.N = y.N ∧ x.C = y.C ∧ x.C = u.numChannels ∧
        (x.N = u.windowH * u.windowW ∨ u.windowH * u.windowW = 1))) ∧
    ((x.B ≠ y.B ∨ x.C ≠ y.C ∨ x.N ≠ y.N) →
      windowCrossAttentionForward e sq u x y = .error .shapeMismatch) ∧
    (x.B = y.B → x.C = y.C → x.N = y.N → x.C ≠ u.numChannels →
      windowCrossAttentionForward e sq u x y = .error .channelMismatch) ∧
    (x.B = y.B → x.C = y.C → x.N = y.N → x.C = u.numChannels →
      ¬(x.N = u.windowH * u.windowW ∨ u.windowH * u.windowW = 1) →
      windowCrossAttentionForward e sq u x y = .error .broadcastMismatch) := by
  unfold windowCrossAttentionForward
  by_cases h1 : x.B ≠ y.B ∨ x.C ≠ y.C ∨ x.N ≠ y.N
  · rw [if_pos h1]
    refine ⟨?_, fun _ => rfl, ?_, ?_⟩
    · constructor
      · intro ⟨p, hp⟩
        exact Except.noConfusion hp
      · intro h
        rcases h1 with h' | h' | h'
        · exact absurd h.1 h'
        · exact absurd h.2.2.1 h'
        · exact absurd h.2.1 h'
    · intro hB hC hN _
      rcases h1 with h' | h' | h'
      · exact absurd hB h'
      · exact absurd hC h'
      · exact absurd hN h'
    · intro hB hC hN _ _
      rcases h1 with h' | h' | h'
      · exact absurd hB h'
      · exact absurd hC h'
      · exact absurd hN h'
  · rw [if_neg h1]
    push_neg at h1
    by_cases h2 : x.C ≠ u.numChannels
    · rw [if_pos h2]
      refine ⟨?_, ?_, fun _ _ _ _ => rfl, ?_⟩
      · constructor
        · intro ⟨p, hp⟩
          exact Except.noConfusion hp
        · intro h
          exact absurd h.2.2.2.1 h2
      · intro h
        rcases h with h' | h' | h'
        · exact absurd h1.1 h'
        · exact absurd h1.2.1 h'
        · exact absurd h1.2.2 h'
      · intro _ _ _ hq _
        exact absurd hq h2
    · rw [if_neg h2]
      rw [not_not] at h2
      by_cases h3 : ¬(x.N = u.windowH * u.windowW ∨ u.windowH * u.windowW = 1)
      · rw [if_pos h3]
        refine ⟨?_, ?_, ?_, fun _ _ _ _ _ => rfl⟩
        · constructor
          · intro ⟨p, hp⟩
            exact Except.noConfusion hp
          · intro h
            exact absurd h.2.2.2.2 h3
        · intro h
          rcases h with h' | h' | h'
          · exact absurd h1.1 h'
          · exact absurd h1.2.1 h'
          · exact absurd h1.2.2 h'
        · intro _ _ _ hq
          exact absurd h2 hq
      · rw [if_neg h3]
        rw [not_not] at h3
        refine ⟨?_, ?_, ?_, ?_⟩
        · constructor
          · intro _
            exact ⟨h1.1, h1.2.2, h1.2.1, h2, h3⟩
          · intro _
            exact ⟨_, rfl⟩
        · intro h
          rcases h with h' | h' | h'
          · exact absurd h1.1 h'
          · exact absurd h1.2.1 h'
          · exact absurd h1.2.2 h'
        · intro _ _ _ hq
          exact absurd h2 hq
        · intro _ _ _ _ hq
          exact absurd h3 hq

/-- Claim C7 (counterexample): a pair of equal `(1, 5, 64)` window batches
fed to a constructed `(8,10)`-window unit passes both explicit checks —
equal shapes, matching channel count — yet the forward raises, because the
`(4, 80, 80)` bias cannot be broadcast-added in place to the `(1, 4, 5, 5)`
scores; this refutes the claim's "only if" direction. -/
theorem c7_counterexample :
    wbN5.B = wbN5.B ∧ wbN5.N = wbN5.N ∧ wbN5.C = wbN5.C ∧
    wbN5.C = attnUnit810.numChannels ∧
    windowCrossAttentionForward id id attnUnit810 wbN5 wbN5 = .error .broadcastMismatch :=
  ⟨rfl, rfl, rfl, rfl, rfl⟩

theorem c7_witness :
    ((∃ p, windowCrossAttentionForward id id attnUnitW wbW1 wbBad = .ok p) ↔
      (wbW1.B = wbBad.B ∧ wbW1.N = wbBad.N ∧ wbW1.C = wbBad.C ∧
        wbW1.C = attnUnitW.numChannels ∧
        (wbW1.N = attnUnitW.windowH * attnUnitW.windowW ∨
          attnUnitW.windowH * attnUnitW.windowW = 1))) ∧
    ((wbW1.B ≠ wbBad.B ∨ wbW1.C ≠ wbBad.C ∨ wbW1.N ≠ wbBad.N) →
      windowCrossAttentionForward id id attnUnitW wbW1 wbBad = .error .shapeMismatch) ∧
    (wbW1.B = wbBad.B → wbW1.C = wbBad.C → wbW1.N = wbBad.N →
      wbW1.C ≠ attnUnitW.numChannels →
      windowCrossAttentionForward id id attnUnitW wbW1 wbBad = .error .channelMismatch) ∧
    (wbW1.B = wbBad.B → wbW1.C = wbBad.C → wbW1.N = wbBad.N →
      wbW1.C = attnUnitW.numChannels →
      ¬(wbW1.N = attnUnitW.windowH * attnUnitW.windowW ∨
        attnUnitW.windowH * attnUnitW.windowW = 1) →
      windowCrossAttentionForward id id attnUnitW wbW1 wbBad = .error .broadcastMismatch) :=
  c7_shape_error_iff id id attnUnitW wbW1 wbBad (by decide)

theorem exceptMap_bind {α β γ ε : Type} (f : α → β) (e : Except ε α) (g : β → Except ε γ) :
    (e.map f) >>= g = e >>= fun a => g (f a) := by
  cases e <;> rfl

/-- Claim C4 (amended): within each pass of the fusion block, the attended
streams get per-stream projection, dropout, residual and norm inside the
attention unit, but the subsequent feed-forward is shared: the block factors
through its two pass stages, and it coincides with the per-stream-modelled
block exactly when both per-stream slots of a pass hold the *same* module
(`feedForward1` for pass 1, `feedForward2` for pass 2). -/
theorem c4_feedforward_shared (e sq gelu : ℚ → ℚ) (blk : CrossAttentionBlockM)
    (x y : FeatureMap) :
    crossAttentionBlockForward e sq gelu blk x y = blockViaPasses e sq gelu blk x y ∧
    crossAttentionBlockForward e sq gelu blk x y =
      crossAttentionBlockForwardPerStream e sq gelu
        { windowH := blk.windowH, windowW := blk.windowW
          crossAttention1 := blk.crossAttention1
          feedForward1x := blk.feedForward1, feedForward1y := blk.feedForward1
          crossAttention2 := blk.crossAttention2
          feedForward2x := blk.feedForward2, feedForward2y := blk.feedForward2 } x y := by
  constructor
  · unfold crossAttentionBlockForward blockViaPasses pass1Of pass2Of
    simp only [exceptMap_bind]
  · rfl

/-- Claim C4 (counterexample): two fusion blocks that differ *only* in the
single module `feedForward1` produce different values on *both* output
streams of pass 1 at a concrete input pair — so within the pass both
streams' refinement is parameterized by that one shared feed-forward, and
no stream has an independently parameterized feed-forward of its own. -/
theorem c4_counterexample :
    blockC4a.crossAttention1 = blockC4b.crossAttention1 ∧
    blockC4a.crossAttention2 = blockC4b.crossAttention2 ∧
    blockC4a.feedForward2 = blockC4b.feedForward2 ∧
    wbFst (pass1Of id id id blockC4a (windowPartition fmC3 2 1) (windowPartition fmC4y 2 1)) 0 0 0 ≠
      wbFst (pass1Of id id id blockC4b (windowPartition fmC3 2 1) (windowPartition fmC4y 2 1)) 0 0 0 ∧
    wbSnd (pass1Of id id id blockC4a (windowPartition fmC3 2 1) (windowPartition fmC4y 2 1)) 0 0 0 ≠
      wbSnd (pass1Of id id id blockC4b (windowPartition fmC3 2 1) (windowPartition fmC4y 2 1)) 0 0 0 := by
  refine ⟨rfl, rfl, rfl, ?_, ?_⟩ <;>
    norm_num [wbFst, wbSnd, pass1Of, windowCrossAttentionForward, windowPartition,
      feedForwardForward, layerNormApply, linApply, softmaxAt, sumR, blockC4a, blockC4b,
      trivAttn, zeroFF, biasFF, zeroLin, unitNorm, fmC3, fmC4y, Except.map]

/-- Claim C3: the fusion block shifts the merged maps by half a window before
the second pass but never applies the inverse shift afterwards — for every
block and input, the alignment-preserving reference (which does apply the
inverse) equals the code's output with an extra forward half-window shift,
so the code's output sits at a cyclic offset of `(wh/2, ww/2)` from its
input's alignment whenever that shift moves content, as it does on the
concrete map `fmC3`. -/
theorem c3_missing_inverse_shift :
    (∀ (e sq gelu : ℚ → ℚ) (blk : CrossAttentionBlockM) (x y : FeatureMap),
      crossAttentionBlockForwardAligned e sq gelu blk x y =
        Except.map
          (fun p => (halfWindowShift p.1 blk.windowH blk.windowW true,
                     halfWindowShift p.2 blk.windowH blk.windowW true))
          (crossAttentionBlockForward e sq gelu blk x y)) ∧
    ((halfWindowShift fmC3 2 1 true).data 0 0 0 0 = fmC3.data 0 0 1 0 ∧
      fmC3.data 0 0 0 0 ≠ fmC3.data 0 0 1 0) := by
  constructor
  · intro e sq gelu blk x y
    unfold crossAttentionBlockForwardAligned crossAttentionBlockForward
    cases h1 : windowCrossAttentionForward e sq blk.crossAttention1
        (windowPartition x blk.windowH blk.windowW)
        (windowPartition y blk.windowH blk.windowW) with
    | error e1 => simp [h1, Except.map, Bind.bind, Except.bind]
    | ok p1 =>
      simp only [h1, Bind.bind, Except.bind]
      cases h2 : windowCrossAttentionForward e sq blk.crossAttention2
          (windowPartition (halfWindowShift (windowMerge
            (feedForwardForward gelu sq blk.feedForward1 p1.1)
            blk.windowH blk.windowW x.H x.W) blk.windowH blk.windowW false)
            blk.windowH blk.windowW)
          (windowPartition (halfWindowShift (windowMerge
            (feedForwardForward gelu sq blk.feedForward1 p1.2)
            blk.windowH blk.windowW x.H x.W) blk.windowH blk.windowW false)
            blk.windowH blk.windowW) with
      | error e2 => simp [h2, Except.map]
      | ok p2 => simp [h2, Except.map, Pure.pure, Except.pure]
  · constructor
    · norm_num [halfWindowShift, fmC3]
    · norm_num [fmC3]

/-- Claim C8: for a feature map whose height and width are exact multiples of
the window size, merging the partition with the same window and image size
returns the map bit-for-bit (same shape, same entry at every index). -/
theorem c8_merge_partition_roundtrip (x : FeatureMap) (wh ww : ℕ)
    (hwh : 0 < wh) (hww : 0 < ww) (hH : wh ∣ x.H) (hW : ww ∣ x.W)
    (hHpos : 0 < x.H) (hWpos : 0 < x.W) :
    (windowMerge (windowPartition x wh ww) wh ww x.H x.W).Eqv x := by
  have hnWh : 0 < x.H / wh := Nat.div_pos (Nat.le_of_dvd hHpos hH) hwh
  have hnWw : 0 < x.W / ww := Nat.div_pos (Nat.le_of_dvd hWpos hW) hww
  have hnW : 0 < x.H / wh * (x.W / ww) := Nat.mul_pos hnWh hnWw
  refine ⟨Nat.mul_div_cancel x.B hnW, rfl, rfl, rfl, ?_⟩
  intro b hb c hc i hi j hj
  have hiw : i / wh < x.H / wh := Nat.div_lt_div_of_lt_of_dvd hH hi
  have hjw : j / ww < x.W / ww := Nat.div_lt_div_of_lt_of_dvd hW hj
  have ht : i / wh * (x.W / ww) + j / ww < x.H / wh * (x.W / ww) := by
    have h1 : i / wh * (x.W / ww) + j / ww < (i / wh + 1) * (x.W / ww) := by
      rw [Nat.add_mul]
      omega
    exact Nat.lt_of_lt_of_le h1 (Nat.mul_le_mul_right _ hiw)
  show (windowPartition x wh ww).data
      (b * (x.H / wh * (x.W / ww)) + (i / wh * (x.W / ww) + j / ww))
      (i % wh * ww + j % ww) c = x.data b c i j
  unfold windowPartition
  have h1 : (b * (x.H / wh * (x.W / ww)) + (i / wh * (x.W / ww) + j / ww)) /
      (x.H / wh * (x.W / ww)) = b := by
    rw [Nat.mul_comm b, Nat.mul_add_div hnW, Nat.div_eq_of_lt ht]
    omega
  have h2 : (b * (x.H / wh * (x.W / ww)) + (i / wh * (x.W / ww) + j / ww)) %
      (x.H / wh * (x.W / ww)) = i / wh * (x.W / ww) + j / ww := by
    rw [Nat.mul_comm b, Nat.mul_add_mod]
    exact Nat.mod_eq_of_lt ht
  have h3 : (i / wh * (x.W / ww) + j / ww) / (x.W / ww) = i / wh := by
    rw [Nat.mul_comm (i / wh), Nat.mul_add_div hnWw, Nat.div_eq_of_lt hjw]
    omega
  have h4 : (i / wh * (x.W / ww) + j / ww) % (x.W / ww) = j / ww := by
    rw [Nat.mul_comm (i / wh), Nat.mul_add_mod]
    exact Nat.mod_eq_of_lt hjw
  have h5 : (i % wh * ww + j % ww) / ww = i % wh := by
    rw [Nat.mul_comm (i % wh), Nat.mul_add_div hww, Nat.div_eq_of_lt (Nat.mod_lt j hww)]
    omega
  have h6 : (i % wh * ww + j % ww) % ww = j % ww := by
    rw [Nat.mul_comm (i % wh), Nat.mul_add_mod]
    exact Nat.mod_eq_of_lt (Nat.mod_lt j hww)
  dsimp only
  rw [h1, h2, h3, h4, h5, h6]
  have h7 : i / wh * wh + i % wh = i := by
    rw [Nat.mul_comm]
    exact Nat.div_add_mod i wh
  have h8 : j / ww * ww + j % ww = j := by
    rw [Nat.mul_comm]
    exact Nat.div_add_mod j ww
  rw [h7, h8]

theorem c8_witness :
    (windowMerge (windowPartition fmC8 1 2) 1 2 fmC8.H fmC8.W).Eqv fmC8 :=
  c8_merge_partition_roundtrip fmC8 1 2 (by decide) (by decide) (by decide) (by decide)
    (by decide) (by decide)

/-- Claim C1: for equally-shaped window batches with the unit's configured
channel count, each output stream of the cross-attention forward is, before
its projection/residual/norm stage, the softmax (along the key axis) of that
stream's queries against the *other* stream's keys scaled by `1/√C` plus
that stream's learned per-head bias, applied to the *other* stream's values
— with the query/key/value triples read off the combined projections as
per-stream linear maps.  The hypothesis `hNE` pins the claim's domain: a
window batch of the unit's configuration has `N = windowH·windowW` (spec
§3), the condition under which the bias addition broadcasts. -/
theorem c1_cross_attention_formula (e sq : ℚ → ℚ) (u : WindowCrossAttention)
    (x y : WindowBatch) (hB : x.B = y.B) (hN : x.N = y.N) (hC : x.C = y.C)
    (hCu : x.C = u.numChannels)
    (hNE : x.N = u.windowH * u.windowW ∨ u.windowH * u.windowW = 1) :
    ∃ o1 o2, windowCrossAttentionForward e sq u x y = .ok (o1, o2) ∧
      (∀ b n c, o1.data b n c =
        layerNormApply sq u.norm1 u.numChannels
          (fun c2 => u.drop1 (linApply u.proj1 u.numChannels
            (fun c3 => crossHeadOut e sq u.wQkv1 u.wQkv2 u.bias1 u.numChannels u.numHeads x.N x y b
              (c3 / (u.numChannels / u.numHeads)) n (c3 % (u.numChannels / u.numHeads))) c2)
            + x.data b n c2) c) ∧
      (∀ b n c, o2.data b n c =
        layerNormApply sq u.norm2 u.numChannels
          (fun c2 => u.drop2 (linApply u.proj2 u.numChannels
            (fun c3 => crossHeadOut e sq u.wQkv2 u.wQkv1 u.bias2 u.numChannels u.numHeads x.N y x b
              (c3 / (u.numChannels / u.numHeads)) n (c3 % (u.numChannels / u.numHeads))) c2)
            + y.data b n c2) c) := by
  have hcond1 : ¬(x.B ≠ y.B ∨ x.C ≠ y.C ∨ x.N ≠ y.N) := by simp [hB, hC, hN]
  have hcond2 : ¬(x.C ≠ u.numChannels) := not_not_intro hCu
  have hcond3 : ¬¬(x.N = u.windowH * u.windowW ∨ u.windowH * u.windowW = 1) :=
    not_not_intro hNE
  unfold windowCrossAttentionForward
  rw [if_neg hcond1, if_neg hcond2, if_neg hcond3, ← hCu]
  refine ⟨_, _, rfl, ?_, ?_⟩ <;>
    · intro b n c
      simp only [crossHeadOut, rowSlice, linApply, softmaxAt, Nat.zero_mul, Nat.one_mul,
        Nat.zero_add, Nat.add_assoc]

theorem c1_witness :
    ∃ o1 o2, windowCrossAttentionForward id id attnUnitW wbW1 wbW2 = .ok (o1, o2) ∧
      (∀ b n c, o1.data b n c =
        layerNormApply id attnUnitW.norm1 attnUnitW.numChannels
          (fun c2 => attnUnitW.drop1 (linApply attnUnitW.proj1 attnUnitW.numChannels
            (fun c3 => crossHeadOut id id attnUnitW.wQkv1 attnUnitW.wQkv2 attnUnitW.bias1
              attnUnitW.numChannels attnUnitW.numHeads wbW1.N wbW1 wbW2 b
              (c3 / (attnUnitW.numChannels / attnUnitW.numHeads)) n
              (c3 % (attnUnitW.numChannels / attnUnitW.numHeads))) c2)
            + wbW1.data b n c2) c) ∧
      (∀ b n c, o2.data b n c =
        layerNormApply id attnUnitW.norm2 attnUnitW.numChannels
          (fun c2 => attnUnitW.drop2 (linApply attnUnitW.proj2 attnUnitW.numChannels
            (fun c3 => crossHeadOut id id attnUnitW.wQkv2 attnUnitW.wQkv1 attnUnitW.bias2
              attnUnitW.numChannels attnUnitW.numHeads wbW1.N wbW2 wbW1 b
              (c3 / (attnUnitW.numChannels / attnUnitW.numHeads)) n
              (c3 % (attnUnitW.numChannels / attnUnitW.numHeads))) c2)
            + wbW2.data b n c2) c) :=
  c1_cross_attention_formula id id attnUnitW wbW1 wbW2 rfl rfl rfl rfl (Or.inl rfl)

theorem getLastD_mem {α : Type} : ∀ (l : List α) (d : α), l ≠ [] → l.getLastD d ∈ l
  | [], _, h => absurd rfl h
  | _ :: _, _, _ => List.getLast_mem _

theorem lastCh_append_singleton (a : ℕ) : ∀ (l : List ℕ) (d : ℕ), lastCh d (l ++ [a]) = a := by
  intro l
  induction l with
  | nil => intro d; rfl
  | cons b l2 ih => intro d; exact ih b

theorem downPass_spec (cs1 : List ℕ) :
    ∀ (bks : List (FeatureMap → FeatureMap → FeatureMap × FeatureMap))
      (cirs cvis : List (FeatureMap → FeatureMap)) (x y : FeatureMap) (bb cc hh ww : ℕ),
      (∀ g ∈ bks, BlockSpec g) → bks.length = cs1.length →
      List.Forall₂ (fun c2 f => ConvSpec f c2) cs1 cirs →
      List.Forall₂ (fun c2 f => ConvSpec f c2) cs1 cvis →
      ShapeIs x bb cc hh ww → ShapeIs y bb cc hh ww →
      ResShapesOK bb hh ww ((cc :: cs1).dropLast) (downPass bks cirs cvis x y).1 ∧
      ShapeIs (downPass bks cirs cvis x y).2.1 bb (lastCh cc cs1)
        (hh / 2 ^ cs1.length) (ww / 2 ^ cs1.length) ∧
      ShapeIs (downPass bks cirs cvis x y).2.2 bb (lastCh cc cs1)
        (hh / 2 ^ cs1.length) (ww / 2 ^ cs1.length) := by
  induction cs1 with
  | nil =>
    intro bks cirs cvis x y bb cc hh ww hbk hlen hir hvi hx hy
    cases hir
    cases hvi
    have hlen0 : bks.length = 0 := by simpa using hlen
    rw [List.length_eq_zero] at hlen0
    subst hlen0
    simp only [downPass]
    refine ⟨trivial, ?_, ?_⟩
    · simpa using hx
    · simpa using hy
  | cons c1 rest ih =>
    intro bks cirs cvis x y bb cc hh ww hbk hlen hir hvi hx hy
    obtain ⟨f, cirs2, hf, hirs, rfl⟩ := List.forall₂_cons_left_iff.1 hir
    obtain ⟨g, cvis2, hg, hvis, rfl⟩ := List.forall₂_cons_left_iff.1 hvi
    cases bks with
    | nil => simp at hlen
    | cons bk bks2 =>
      have hbk1 := (hbk bk (List.mem_cons_self _ _)) x y
      have hr : ShapeIs (fmMax (bk x y).1 (bk x y).2) bb cc hh ww := by
        obtain ⟨e1, e2, e3, e4⟩ := hbk1.1
        exact ⟨e1.trans hx.1, e2.trans hx.2.1, e3.trans hx.2.2.1, e4.trans hx.2.2.2⟩
      have hx2 : ShapeIs (f (maxPool2 x)) bb c1 (hh / 2) (ww / 2) := by
        obtain ⟨a1, a2, a3, a4⟩ := hf (maxPool2 x)
        exact ⟨a1.trans hx.1, a2, a3.trans (congrArg (· / 2) hx.2.2.1),
          a4.trans (congrArg (· / 2) hx.2.2.2)⟩
      have hy2 : ShapeIs (g (maxPool2 y)) bb c1 (hh / 2) (ww / 2) := by
        obtain ⟨a1, a2, a3, a4⟩ := hg (maxPool2 y)
        exact ⟨a1.trans hy.1, a2, a3.trans (congrArg (· / 2) hy.2.2.1),
          a4.trans (congrArg (· / 2) hy.2.2.2)⟩
      obtain ⟨ihres, ih1, ih2⟩ := ih bks2 cirs2 cvis2 (f (maxPool2 x)) (g (maxPool2 y)) bb c1
        (hh / 2) (ww / 2) (fun g2 hg2 => hbk g2 (List.mem_cons_of_mem _ hg2))
        (by simpa using hlen) hirs hvis hx2 hy2
      have hdimH : hh / 2 / 2 ^ rest.length = hh / 2 ^ (rest.length + 1) := by
        rw [Nat.div_div_eq_div_mul, Nat.pow_succ, Nat.mul_comm]
      have hdimW : ww / 2 / 2 ^ rest.length = ww / 2 ^ (rest.length + 1) := by
        rw [Nat.div_div_eq_div_mul, Nat.pow_succ, Nat.mul_comm]
      simp only [downPass]
      refine ⟨⟨hr, ihres⟩, ?_, ?_⟩
      · exact ⟨ih1.1, ih1.2.1, ih1.2.2.1.trans hdimH, ih1.2.2.2.trans hdimW⟩
      · exact ⟨ih2.1, ih2.2.1, ih2.2.2.1.trans hdimH, ih2.2.2.2.trans hdimW⟩

theorem revShapesOK_append (cs : List ℕ) :
    ∀ (rs : List FeatureMap) (bb hh ww c : ℕ) (r : FeatureMap),
      RevShapesOK bb hh ww cs rs →
      ShapeIs r bb c (2 ^ (cs.length + 1) * hh) (2 ^ (cs.length + 1) * ww) →
      RevShapesOK bb hh ww (cs ++ [c]) (rs ++ [r]) := by
  induction cs with
  | nil =>
    intro rs bb hh ww c r hrs hr
    cases rs with
    | nil =>
      refine ⟨?_, trivial⟩
      simpa [Nat.pow_succ] using hr
    | cons _ _ => exact hrs.elim
  | cons c1 cs2 ih =>
    intro rs bb hh ww c r hrs hr
    cases rs with
    | nil => exact hrs.elim
    | cons r1 rs2 =>
      obtain ⟨h1, h2⟩ := hrs
      refine ⟨h1, ih rs2 bb (2 * hh) (2 * ww) c r h2 ?_⟩
      have eH : 2 ^ (cs2.length + 1) * (2 * hh) = 2 ^ (cs2.length + 1 + 1) * hh := by
        rw [Nat.pow_succ]
        ring
      have eW : 2 ^ (cs2.length + 1) * (2 * ww) = 2 ^ (cs2.length + 1 + 1) * ww := by
        rw [Nat.pow_succ]
        ring
      exact ⟨hr.1, hr.2.1, hr.2.2.1.trans (by simpa using eH.symm),
        hr.2.2.2.trans (by simpa using eW.symm)⟩

theorem resShapes_reverse (cs : List ℕ) :
    ∀ (rs : List FeatureMap) (bb hh ww : ℕ),
      2 ^ cs.length ∣ hh → 2 ^ cs.length ∣ ww →
      ResShapesOK bb hh ww cs rs →
      RevShapesOK bb (hh / 2 ^ cs.length) (ww / 2 ^ cs.length) cs.reverse rs.reverse := by
  induction cs with
  | nil =>
    intro rs bb hh ww _ _ hres
    cases rs with
    | nil => simp [RevShapesOK]
    | cons _ _ => exact hres.elim
  | cons c1 cs2 ih =>
    intro rs bb hh ww hdh hdw hres
    cases rs with
    | nil => exact hres.elim
    | cons r1 rs2 =>
      obtain ⟨h1, h2⟩ := hres
      simp only [List.length_cons] at hdh hdw ⊢
      simp only [List.reverse_cons]
      have hdh2 : 2 ^ cs2.length ∣ hh / 2 := by
        obtain ⟨m, hm⟩ := hdh
        refine ⟨m, ?_⟩
        rw [hm, Nat.pow_succ, Nat.mul_comm (2 ^ cs2.length) 2, Nat.mul_assoc,
          Nat.mul_div_cancel_left _ (by norm_num)]
      have hdw2 : 2 ^ cs2.length ∣ ww / 2 := by
        obtain ⟨m, hm⟩ := hdw
        refine ⟨m, ?_⟩
        rw [hm, Nat.pow_succ, Nat.mul_comm (2 ^ cs2.length) 2, Nat.mul_assoc,
          Nat.mul_div_cancel_left _ (by norm_num)]
      have hdimH : hh / 2 / 2 ^ cs2.length = hh / 2 ^ (cs2.length + 1) := by
        rw [Nat.div_div_eq_div_mul, Nat.pow_succ, Nat.mul_comm]
      have hdimW : ww / 2 / 2 ^ cs2.length = ww / 2 ^ (cs2.length + 1) := by
        rw [Nat.div_div_eq_div_mul, Nat.pow_succ, Nat.mul_comm]
      have ihr := ih rs2 bb (hh / 2) (ww / 2) hdh2 hdw2 h2
      rw [hdimH, hdimW] at ihr
      refine revShapesOK_append cs2.reverse rs2.reverse bb _ _ c1 r1 ihr ?_
      have mH : 2 ^ (cs2.reverse.length + 1) * (hh / 2 ^ (cs2.length + 1)) = hh := by
        rw [List.length_reverse]
        exact Nat.mul_div_cancel' hdh
      have mW : 2 ^ (cs2.reverse.length + 1) * (ww / 2 ^ (cs2.length + 1)) = ww := by
        rw [List.length_reverse]
        exact Nat.mul_div_cancel' hdw
      exact ⟨h1.1, h1.2.1, h1.2.2.1.trans mH.symm, h1.2.2.2.trans mW.symm⟩

theorem upPass_spec (cs2 : List ℕ) :
    ∀ (uss ucs : List (FeatureMap → FeatureMap)) (rs : List FeatureMap) (z : FeatureMap)
      (bb cz hh ww : ℕ),
      List.Forall₂ (fun c2 f => UpSpec f c2) cs2 uss →
      List.Forall₂ (fun c2 f => ConvSpec f c2) cs2 ucs →
      RevShapesOK bb hh ww cs2 rs →
      ShapeIs z bb cz hh ww →
      ShapeIs (upPass uss ucs rs z) bb (lastCh cz cs2)
        (2 ^ cs2.length * hh) (2 ^ cs2.length * ww) := by
  induction cs2 with
  | nil =>
    intro uss ucs rs z bb cz hh ww hus huc hrs hz
    cases hus
    cases huc
    cases rs with
    | nil =>
      simp only [upPass]
      simpa using hz
    | cons _ _ => exact hrs.elim
  | cons c1 cs3 ih =>
    intro uss ucs rs z bb cz hh ww hus huc hrs hz
    obtain ⟨us, uss2, hu, hus2, rfl⟩ := List.forall₂_cons_left_iff.1 hus
    obtain ⟨uc, ucs2, hc2, hucs2, rfl⟩ := List.forall₂_cons_left_iff.1 huc
    cases rs with
    | nil => exact hrs.elim
    | cons r1 rs2 =>
      obtain ⟨h1, h2⟩ := hrs
      have hzu : ShapeIs (uc (fmCat (us z) r1)) bb c1 (2 * hh) (2 * ww) := by
        obtain ⟨a1, a2, a3, a4⟩ := hc2 (fmCat (us z) r1)
        obtain ⟨b1, b2, b3, b4⟩ := hu z
        exact ⟨a1.trans (b1.trans hz.1), a2,
          a3.trans (b3.trans (congrArg (2 * ·) hz.2.2.1)),
          a4.trans (b4.trans (congrArg (2 * ·) hz.2.2.2))⟩
      have ihr := ih uss2 ucs2 rs2 (uc (fmCat (us z) r1)) bb c1 (2 * hh) (2 * ww)
        hus2 hucs2 h2 hzu
      simp only [upPass]
      have eH : 2 ^ cs3.length * (2 * hh) = 2 ^ (cs3.length + 1) * hh := by
        rw [Nat.pow_succ]
        ring
      have eW : 2 ^ cs3.length * (2 * ww) = 2 ^ (cs3.length + 1) * ww := by
        rw [Nat.pow_succ]
        ring
      exact ⟨ihr.1, ihr.2.1, ihr.2.2.1.trans eH, ihr.2.2.2.trans eW⟩

theorem lastCh_rev_dropLast (c0 : ℕ) (cs : List ℕ) :
    lastCh (lastCh c0 cs) ((c0 :: cs).dropLast.reverse) = c0 := by
  cases cs with
  | nil => rfl
  | cons c1 cs2 =>
    show lastCh (lastCh c1 cs2) ((c0 :: (c1 :: cs2).dropLast).reverse) = c0
    rw [List.reverse_cons]
    exact lastCh_append_singleton c0 _ _

/-- Claim C2: for every valid input pair (single-channel low-resolution map,
guide map of the same batch) fed to a well-shaped network whose guide
resolution is divisible by `2^(scales-1)`, the forward output is exactly the
bilinearly-upsampled low-resolution input plus `tanh` of the 1×1 projection
of the decoder's shallowest features — a `(B, c₀, H_hr, W_hr)` map — and the
output has shape `(B, 1, H_hr, W_hr)`; the residual sum is returned with no
further clamping operation. -/
theorem c2_forward_residual_shape (th : ℚ → ℚ) (net : GSRNetM) (x y : FeatureMap)
    (c0 : ℕ) (cs : List ℕ)
    (hcs : net.numChannelsList = c0 :: cs)
    (hxC : x.C = 1) (hyB : y.B = x.B)
    (htIr : ConvSpec net.topDownConvIr c0) (htVi : ConvSpec net.topDownConvVi c0)
    (hblocks : ∀ g ∈ net.crossAttentionBlocks, BlockSpec g)
    (hblen : net.crossAttentionBlocks.length = cs.length + 1)
    (hdIr : List.Forall₂ (fun c2 f => ConvSpec f c2) cs net.downConvListIr)
    (hdVi : List.Forall₂ (fun c2 f => ConvSpec f c2) cs net.downConvListVi)
    (hbu : ConvSpec net.bottomUpConv (lastCh c0 cs))
    (hus : List.Forall₂ (fun c2 f => UpSpec f c2) ((c0 :: cs).dropLast.reverse) net.upSampleList)
    (huc : List.Forall₂ (fun c2 f => ConvSpec f c2) ((c0 :: cs).dropLast.reverse) net.upConvList)
    (hdvH : 2 ^ cs.length ∣ y.H) (hdvW : 2 ^ cs.length ∣ y.W) :
    ShapeIs (gsrnetForward th net x y) x.B 1 y.H y.W ∧
    ∃ z, ShapeIs z x.B c0 y.H y.W ∧
      gsrnetForward th net x y =
        fmAdd (bilinearResize x y.H y.W)
          (fmMap th (conv1x1 net.projWeight net.projBias z)) := by
  have hxd : ShapeIs (net.topDownConvIr (bilinearResize x y.H y.W)) x.B c0 y.H y.W := by
    obtain ⟨a1, a2, a3, a4⟩ := htIr (bilinearResize x y.H y.W)
    exact ⟨a1, a2, a3, a4⟩
  have hyd : ShapeIs (net.topDownConvVi y) x.B c0 y.H y.W := by
    obtain ⟨a1, a2, a3, a4⟩ := htVi y
    exact ⟨a1.trans hyB, a2, a3, a4⟩
  have hsub : ∀ g ∈ net.crossAttentionBlocks.dropLast, BlockSpec g :=
    fun g hg => hblocks g (List.dropLast_subset _ hg)
  have hdl : net.crossAttentionBlocks.dropLast.length = cs.length := by
    rw [List.length_dropLast, hblen]
    rfl
  obtain ⟨hres, hd1, hd2⟩ := downPass_spec cs net.crossAttentionBlocks.dropLast
    net.downConvListIr net.downConvListVi (net.topDownConvIr (bilinearResize x y.H y.W))
    (net.topDownConvVi y) x.B c0 y.H y.W hsub hdl hdIr hdVi hxd hyd
  have hbne : net.crossAttentionBlocks ≠ [] := by
    intro h
    rw [h] at hblen
    simp at hblen
  have hbkL : BlockSpec (net.crossAttentionBlocks.getLastD (fun a _ => (a, a))) :=
    hblocks _ (getLastD_mem _ _ hbne)
  obtain ⟨a1, a2, a3, a4⟩ :=
    (hbkL (downPass net.crossAttentionBlocks.dropLast net.downConvListIr net.downConvListVi
      (net.topDownConvIr (bilinearResize x y.H y.W)) (net.topDownConvVi y)).2.1
      (downPass net.crossAttentionBlocks.dropLast net.downConvListIr net.downConvListVi
      (net.topDownConvIr (bilinearResize x y.H y.W)) (net.topDownConvVi y)).2.2).1
  have hmax : ShapeIs (fmMax
      ((net.crossAttentionBlocks.getLastD (fun a _ => (a, a)))
        (downPass net.crossAttentionBlocks.dropLast net.downConvListIr net.downConvListVi
          (net.topDownConvIr (bilinearResize x y.H y.W)) (net.topDownConvVi y)).2.1
        (downPass net.crossAttentionBlocks.dropLast net.downConvListIr net.downConvListVi
          (net.topDownConvIr (bilinearResize x y.H y.W)) (net.topDownConvVi y)).2.2).1
      ((net.crossAttentionBlocks.getLastD (fun a _ => (a, a)))
        (downPass net.crossAttentionBlocks.dropLast net.downConvListIr net.downConvListVi
          (net.topDownConvIr (bilinearResize x y.H y.W)) (net.topDownConvVi y)).2.1
        (downPass net.crossAttentionBlocks.dropLast net.downConvListIr net.downConvListVi
          (net.topDownConvIr (bilinearResize x y.H y.W)) (net.topDownConvVi y)).2.2).2)
      x.B (lastCh c0 cs) (y.H / 2 ^ cs.length) (y.W / 2 ^ cs.length) :=
    ⟨a1.trans hd1.1, a2.trans hd1.2.1, a3.trans hd1.2.2.1, a4.trans hd1.2.2.2⟩
  have hz0 : ShapeIs (net.bottomUpConv (fmMax
      ((net.crossAttentionBlocks.getLastD (fun a _ => (a, a)))
        (downPass net.crossAttentionBlocks.dropLast net.downConvListIr net.downConvListVi
          (net.topDownConvIr (bilinearResize x y.H y.W)) (net.topDownConvVi y)).2.1
        (downPass net.crossAttentionBlocks.dropLast net.downConvListIr net.downConvListVi
          (net.topDownConvIr (bilinearResize x y.H y.W)) (net.topDownConvVi y)).2.2).1
      ((net.crossAttentionBlocks.getLastD (fun a _ => (a, a)))
        (downPass net.crossAttentionBlocks.dropLast net.downConvListIr net.downConvListVi
          (net.topDownConvIr (bilinearResize x y.H y.W)) (net.topDownConvVi y)).2.1
        (downPass net.crossAttentionBlocks.dropLast net.downConvListIr net.downConvListVi
          (net.topDownConvIr (bilinearResize x y.H y.W)) (net.topDownConvVi y)).2.2).2))
      x.B (lastCh c0 cs) (y.H / 2 ^ cs.length) (y.W / 2 ^ cs.length) := by
    obtain ⟨b1, b2, b3, b4⟩ := hbu (fmMax _ _)
    exact ⟨b1.trans hmax.1, b2, b3.trans hmax.2.2.1, b4.trans hmax.2.2.2⟩
  have hdl2 : ((c0 :: cs).dropLast).length = cs.length := by simp
  have hrev := resShapes_reverse ((c0 :: cs).dropLast)
    (downPass net.crossAttentionBlocks.dropLast net.downConvListIr net.downConvListVi
      (net.topDownConvIr (bilinearResize x y.H y.W)) (net.topDownConvVi y)).1 x.B y.H y.W
    (by rw [hdl2]; exact hdvH) (by rw [hdl2]; exact hdvW) hres
  rw [hdl2] at hrev
  have hup := upPass_spec ((c0 :: cs).dropLast.reverse) net.upSampleList net.upConvList
    (downPass net.crossAttentionBlocks.dropLast net.downConvListIr net.downConvListVi
      (net.topDownConvIr (bilinearResize x y.H y.W)) (net.topDownConvVi y)).1.reverse
    (net.bottomUpConv (fmMax
      ((net.crossAttentionBlocks.getLastD (fun a _ => (a, a)))
        (downPass net.crossAttentionBlocks.dropLast net.downConvListIr net.downConvListVi
          (net.topDownConvIr (bilinearResize x y.H y.W)) (net.topDownConvVi y)).2.1
        (downPass net.crossAttentionBlocks.dropLast net.downConvListIr net.downConvListVi
          (net.topDownConvIr (bilinearResize x y.H y.W)) (net.topDownConvVi y)).2.2).1
      ((net.crossAttentionBlocks.getLastD (fun a _ => (a, a)))
        (downPass net.crossAttentionBlocks.dropLast net.downConvListIr net.downConvListVi
          (net.topDownConvIr (bilinearResize x y.H y.W)) (net.topDownConvVi y)).2.1
        (downPass net.crossAttentionBlocks.dropLast net.downConvListIr net.downConvListVi
          (net.topDownConvIr (bilinearResize x y.H y.W)) (net.topDownConvVi y)).2.2).2))
    x.B (lastCh c0 cs) (y.H / 2 ^ cs.length) (y.W / 2 ^ cs.length) hus huc hrev hz0
  have hlen3 : ((c0 :: cs).dropLast.reverse).length = cs.length := by simp
  have hmulH : 2 ^ ((c0 :: cs).dropLast.reverse).length * (y.H / 2 ^ cs.length) = y.H := by
    rw [hlen3]
    exact Nat.mul_div_cancel' hdvH
  have hmulW : 2 ^ ((c0 :: cs).dropLast.reverse).length * (y.W / 2 ^ cs.length) = y.W := by
    rw [hlen3]
    exact Nat.mul_div_cancel' hdvW
  refine ⟨⟨rfl, hxC, rfl, rfl⟩, ⟨_, ⟨hup.1, hup.2.1.trans (lastCh_rev_dropLast c0 cs),
    hup.2.2.1.trans hmulH, hup.2.2.2.trans hmulW⟩, rfl⟩⟩

theorem c2_witness :
    ShapeIs (gsrnetForward id netW fmXw fmYw) fmXw.B 1 fmYw.H fmYw.W ∧
    ∃ z, ShapeIs z fmXw.B 2 fmYw.H fmYw.W ∧
      gsrnetForward id netW fmXw fmYw =
        fmAdd (bilinearResize fmXw fmYw.H fmYw.W)
          (fmMap id (conv1x1 netW.projWeight netW.projBias z)) :=
  c2_forward_residual_shape id netW fmXw fmYw 2 [] rfl rfl rfl
    (fun _ => ⟨rfl, rfl, rfl, rfl⟩) (fun _ => ⟨rfl, rfl, rfl, rfl⟩)
    (by
      intro g hg
      cases hg with
      | head => exact fun _ _ => ⟨⟨rfl, rfl, rfl, rfl⟩, ⟨rfl, rfl, rfl, rfl⟩⟩
      | tail _ h => cases h)
    rfl List.Forall₂.nil List.Forall₂.nil (fun _ => ⟨rfl, rfl, rfl, rfl⟩)
    List.Forall₂.nil List.Forall₂.nil (one_dvd _) (one_dvd _)
